import Mathlib

/-
Verification development for the OCR_READER_AT repository (src/main.py).

The pipeline in `perform_ocr` (main.py) is embedded shallowly:

  * JSON values exchanged with the external services are modelled by `JVal`;
    Python dicts become association lists (`JObj`) whose operations mirror
    `dict.get`, item assignment, `del`, and `in`.
  * Python string operations used by the code (`str.split`, `in`,
    `str.strip`, `str.startswith`) are reimplemented over `List Char` with
    the exact left-to-right non-overlapping semantics of CPython.
  * The external collaborators (OpenAI chat completions, Google custom
    search HTTP endpoint, the Apps Script sink) are oracles packaged in a
    `World`.  Each generation call happens at most once per run, so a
    constant reply per call site loses no generality for single-run
    properties.  `jsonLoads` is the JSON decoder parameter (the semantics
    of Python json.loads); every theorem quantifies over it.
  * Exceptions raised by library calls are modelled as `none` / `failure`
    values; FastAPI turns them into HTTP error responses exactly as the
    outer `except` of `perform_ocr` does.
  * The observable outbound calls of a run are recorded as a `CallEvent`
    trace returned next to the `Except` result.
-/

set_option autoImplicit false

namespace OCRReader

/-- JSON values, as produced by json.loads and sent to the collaborators.
Numbers are restricted to integers; no claim involves non-integer numbers. -/
inductive JVal where
  | str (s : String)
  | bool (b : Bool)
  | null
  | num (n : Int)
  | arr (elems : List JVal)
  | obj (fields : List (String × JVal))

/-- A Python dict with string keys, as an insertion-ordered association list.
Real dicts have unique keys; all operations use the first occurrence. -/
abbrev JObj := List (String × JVal)

/-- Python dict lookup: `o.get(k)` without default, as an Option. -/
def jget (o : JObj) (k : String) : Option JVal :=
  match o with
  | [] => none
  | (k₂, v) :: rest => if k₂ = k then some v else jget rest k

/-- Python dict lookup with default: `o.get(k, d)`. -/
def jgetD (o : JObj) (k : String) (d : JVal) : JVal :=
  (jget o k).getD d

/-- Python dict item assignment `o[k] = v`: replace in place, else append. -/
def jset (o : JObj) (k : String) (v : JVal) : JObj :=
  match o with
  | [] => [(k, v)]
  | (k₂, v₂) :: rest => if k₂ = k then (k, v) :: rest else (k₂, v₂) :: jset rest k v

/-- Python `del o[k]`: drop the (unique) entry with key `k`. -/
def jerase (o : JObj) (k : String) : JObj :=
  match o with
  | [] => []
  | (k₂, v₂) :: rest => if k₂ = k then rest else (k₂, v₂) :: jerase rest k

/-- Python `k in o` for a dict. -/
def jhasKey (o : JObj) (k : String) : Bool :=
  (jget o k).isSome

/-- Python truthiness of a JSON value. -/
def JVal.truthy : JVal → Bool
  | .str s => !(s == "")
  | .bool b => b
  | .null => false
  | .num n => !(n == 0)
  | .arr l => !l.isEmpty
  | .obj o => !o.isEmpty

/-- Python `len`, which raises TypeError (`none`) on numbers, booleans, None. -/
def pyLen : JVal → Option Nat
  | .str s => some s.length
  | .arr l => some l.length
  | .obj o => some o.length
  | _ => none

/-- Python `str()` as used by f-string interpolation.  Container rendering is
a placeholder: no claim inspects the textual form of a non-scalar value. -/
def pyStr : JVal → String
  | .str s => s
  | .bool b => if b then "True" else "False"
  | .null => "None"
  | .num n => toString n
  | .arr _ => "[...]"
  | .obj _ => "\x7b...\x7d"

/-- One substring-occurrence test over character lists: Python `sub in s`. -/
def occursIn (sep : List Char) : List Char → Bool
  | [] => sep.isEmpty
  | c :: cs => sep.isPrefixOf (c :: cs) || occursIn sep cs

/-- Fuelled worker for Python `str.split(sep)`: scan left to right, at each
position either consume a (non-overlapping) occurrence of `sep` or move one
character into the accumulator.  Every step consumes at least one character,
so `fuel = length of the input` always suffices; the fuel-0 clause is
unreachable from `splitList`. -/
def splitGo (sep : List Char) : Nat → List Char → List Char → List (List Char)
  | 0, acc, rest => [acc.reverse ++ rest]
  | _ + 1, acc, [] => [acc.reverse]
  | fuel + 1, acc, c :: cs =>
    if sep.isPrefixOf (c :: cs) then
      acc.reverse :: splitGo sep fuel [] (cs.drop (sep.length - 1))
    else
      splitGo sep fuel (c :: acc) cs

/-- Python `s.split(sep)` over character lists (for non-empty `sep`). -/
def splitList (sep l : List Char) : List (List Char) :=
  splitGo sep l.length [] l

/-- Python `s.split(sep)` on strings. -/
def pySplit (s sep : String) : List String :=
  (splitList sep.data s.data).map String.mk

/-- Python `sub in s` on strings. -/
def pyContains (sub s : String) : Bool :=
  occursIn sub.data s.data

/-- Python `s.strip()` (whitespace from both ends). -/
def pyStrip (s : String) : String :=
  ⟨((s.data.dropWhile Char.isWhitespace).reverse.dropWhile Char.isWhitespace).reverse⟩

/-- Python `s.startswith(pre)`. -/
def pyStartsWith (s pre : String) : Bool :=
  pre.data.isPrefixOf s.data

/-- The apostrophe character, used as the spreadsheet escape marker. -/
def apos : Char := Char.ofNat 39

/-- The one-character escape marker prepended to phone numbers. -/
def aposS : String := String.singleton apos

/- ===== Configuration and request/response models (main.py lines 14-61) ===== -/

/-- Startup configuration.  `OPENAI_API_KEY` and `APPS_SCRIPT_URL` must be
present or the process refuses to start (main.py lines 21-26), so only the
optional Google credentials remain as a degree of freedom. -/
structure Config where
  hasGoogleKeys : Bool

/-- The request body: `base64Image1` required, `base64Image2` optional. -/
structure OCRRequest where
  base64Image1 : String
  base64Image2 : Option String

/-- The pydantic response model `OCRResponse` (main.py lines 50-61): eleven
fields, each defaulting when absent from the keyword arguments. -/
structure OCRResponse where
  company : String
  name : String
  title : String
  phone : String
  email : String
  address : String
  website : String
  validation_source : String
  is_validated : Bool
  about_the_company : String
  location : String

/-- JSON serialization of the response model, as produced by FastAPI from
`response_model=OCRResponse`: exactly the eleven declared fields. -/
def responseJson (r : OCRResponse) : JObj :=
  [("company", .str r.company), ("name", .str r.name), ("title", .str r.title),
   ("phone", .str r.phone), ("email", .str r.email), ("address", .str r.address),
   ("website", .str r.website), ("validation_source", .str r.validation_source),
   ("is_validated", .bool r.is_validated), ("about_the_company", .str r.about_the_company),
   ("location", .str r.location)]

/-- Pydantic (v2, lax mode) validation of a `str` field: accepts exactly
strings; numbers, booleans and null are rejected with a ValidationError. -/
def asStr : JVal → Option String
  | .str s => some s
  | _ => none

/-- Pydantic (v2, lax mode) validation of a `bool` field: booleans, the
integers 0/1, and the usual boolean-ish strings. -/
def asBool : JVal → Option Bool
  | .bool b => some b
  | .num 0 => some false
  | .num 1 => some true
  | .str s =>
    if s.toLower ∈ ["0", "off", "f", "false", "n", "no"] then some false
    else if s.toLower ∈ ["1", "on", "t", "true", "y", "yes"] then some true
    else none
  | _ => none

/-- Validation of one string field of `OCRResponse`: a missing keyword
argument takes the declared default `""`. -/
def fieldStr (o : JObj) (k : String) : Option String :=
  match jget o k with
  | none => some ""
  | some v => asStr v

/-- Validation of the `is_validated` field: missing defaults to `False`. -/
def fieldBool (o : JObj) (k : String) : Option Bool :=
  match jget o k with
  | none => some false
  | some v => asBool v

/-- The ten string-typed field names of `OCRResponse`. -/
def strFieldNames : List String :=
  ["company", "name", "title", "phone", "email", "address", "website",
   "validation_source", "about_the_company", "location"]

/-- All eleven field names of `OCRResponse`, in declaration order. -/
def elevenFieldNames : List String :=
  ["company", "name", "title", "phone", "email", "address", "website",
   "validation_source", "is_validated", "about_the_company", "location"]

/-- Whether `OCRResponse(**o)` validates: every field value present among the
keyword arguments must coerce to the declared type (extra keys are ignored,
missing keys take defaults). -/
def pydanticOk (o : JObj) : Bool :=
  (strFieldNames.all fun k => (fieldStr o k).isSome) && (fieldBool o "is_validated").isSome

/-- The constructor call `OCRResponse(**final_data)` (main.py line 286):
`none` models the ValidationError path (caught by the outer handler). -/
def mkOCRResponse (o : JObj) : Option OCRResponse :=
  if pydanticOk o then
    some { company := (fieldStr o "company").getD ""
           name := (fieldStr o "name").getD ""
           title := (fieldStr o "title").getD ""
           phone := (fieldStr o "phone").getD ""
           email := (fieldStr o "email").getD ""
           address := (fieldStr o "address").getD ""
           website := (fieldStr o "website").getD ""
           validation_source := (fieldStr o "validation_source").getD ""
           is_validated := (fieldBool o "is_validated").getD false
           about_the_company := (fieldStr o "about_the_company").getD ""
           location := (fieldStr o "location").getD "" }
  else none

/- ===== Google search (main.py lines 63-82) ===== -/

/-- Outcome of the one HTTP round trip inside `search_google`: `failure`
covers every exception path (transport error, non-2xx from
`raise_for_status`, undecodable body) — all are caught by the bare
`except` and turned into `None`.  A decoded body that is not a JSON object
also ends in `None`: the `"items" in results` membership test either is
false, raises, or is followed by an indexing TypeError, all inside the same
`try`. -/
inductive SearchNet where
  | failure
  | ok (body : JVal)

/-- The function `search_google(query, num_results)` (main.py lines 64-82),
with the HTTP layer abstracted as `net`.  Returns `results["items"]` when
present and non-empty, `None` otherwise. -/
def search_google (cfg : Config) (net : String → Nat → SearchNet)
    (query : String) (num_results : Nat) : Option JVal :=
  if !cfg.hasGoogleKeys then none
  else
    match net query num_results with
    | .failure => none
    | .ok body =>
      match body with
      | .obj results =>
        match jget results "items" with
        | none => none
        | some items =>
          match pyLen items with
          | none => none
          | some n => if n > 0 then some items else none
      | _ => none

/- ===== JSON helper (main.py lines 85-88) ===== -/

/-- The helper `parse_openai_json(response_content)`: if the reply contains
a fenced block marked as JSON, keep what stands between the opening
"```json" fence and the next "```" fence and strip whitespace; then decode.
`jsonLoads` is the decoder parameter (Python json.loads); `none` models the
JSONDecodeError it raises on garbage. -/
def parse_openai_json (jsonLoads : String → Option JVal) (response_content : String) :
    Option JVal :=
  let content :=
    if pyContains "```json" response_content then
      pyStrip ((pySplit ((pySplit response_content "```json").getD 1 "") "```").getD 0 "")
    else response_content
  jsonLoads content

/- ===== The orchestrator perform_ocr (main.py lines 107-292) ===== -/

/-- Outcome of the single Apps Script POST (main.py lines 268-276):
`failure` covers transport errors, non-2xx from `raise_for_status`, and an
undecodable body; `ok body` is the decoded JSON reply. -/
inductive SinkNet where
  | failure (msg : String)
  | ok (body : JVal)

/-- Detail of an HTTP error response.  `generic` is the outer handler
(status 500 with `str(e)`); `appsScript` is the inner submission handler
(status 502, "Apps Script Submission Failed: ...").  Message texts carried
by exceptions are kept only as informal strings. -/
inductive ErrDetail where
  | generic (msg : String)
  | appsScript (msg : String)

/-- An HTTP error response (FastAPI `HTTPException`). -/
structure ErrResp where
  status : Nat
  detail : ErrDetail

/-- The JSON payload of the Apps Script POST (main.py lines 261-266). -/
structure SinkPayload where
  action : String
  photo1Base64 : String
  photo2Base64 : String
  extractedData : JObj

/-- Observable outbound calls of one run, in order.  The two search events
are the two distinct `search_google` call sites of the orchestrator. -/
inductive CallEvent where
  | openaiExtract
  | searchValidation (query : String) (num : Nat)
  | openaiValidate
  | searchEnrichment (query : String) (num : Nat)
  | openaiEnrich
  | sinkPost (payload : SinkPayload)

/-- Oracle for the external collaborators during one run.  Each OpenAI call
happens at most once per run, so one reply per call site is fully general
for single-run properties; `none` models the call (or `json.loads` for
`jsonLoads`) raising an exception. -/
structure World where
  jsonLoads : String → Option JVal
  extractReply : Option String
  validateReply : Option String
  enrichReply : Option String
  searchNet : String → Nat → SearchNet
  sinkNet : SinkNet

/-- Input normalization of the front image (main.py lines 113-114):
the element at index 1 of the comma-split payload when a comma occurs. -/
def cleanImage1 (s : String) : String :=
  if pyContains "," s then (pySplit s ",").getD 1 "" else s

/-- Input normalization of the optional back image (main.py lines 116-121). -/
def cleanImage2 : Option String → String
  | none => ""
  | some s =>
    if s = "" then ""
    else if pyContains "," s then (pySplit s ",").getD 1 "" else s

/-- The validation search query (main.py lines 150-163): the `elif` chain
over the truthiness of the extracted company, name, and slogan values.
The result is the Python value of `search_query`: a formatted string on
the two-field branches, the raw extracted value on the single-field
branches, and `""` when every branch fails. -/
def buildSearchQuery (ocr_data : JObj) : JVal :=
  let company := jgetD ocr_data "company" (.str "")
  let name := jgetD ocr_data "name" (.str "")
  let slogan := jgetD ocr_data "slogan" (.str "")
  if company.truthy && slogan.truthy then .str (pyStr company ++ " " ++ pyStr slogan)
  else if company.truthy && name.truthy then .str (pyStr name ++ " " ++ pyStr company)
  else if company.truthy then company
  else if slogan.truthy then slogan
  else if name.truthy then name
  else .str ""

/-- The enrichment search query (main.py line 203): the double-quoted
stringified company value, taken by `validated_data.get("company")` with no
default, followed by the fixed contact-info keywords. -/
def contactQuery (validated_data : JObj) : String :=
  "\"" ++ pyStr (jgetD validated_data "company" .null) ++
    "\" about description location contact info email phone address"

/-- Phone escaping (main.py lines 252-254): if `final_data.get("phone", "")`
is truthy and starts with a plus sign, prepend one apostrophe.  `none`
models the AttributeError raised by `.startswith` on a truthy non-string
value (caught by the outer handler). -/
def escapePhone (final_data : JObj) : Option JObj :=
  let phone_number := jgetD final_data "phone" (.str "")
  if phone_number.truthy then
    match phone_number with
    | .str s =>
      some (if pyStartsWith s "+" then jset final_data "phone" (.str (aposS ++ s))
            else final_data)
    | _ => none
  else some final_data

/-- Slogan removal (main.py lines 255-256). -/
def dropSlogan (final_data : JObj) : JObj :=
  if jhasKey final_data "slogan" then jerase final_data "slogan" else final_data

/-- Finalization and submission (main.py lines 252-286): phone escaping,
slogan removal, the Apps Script POST with its nested `try` (any exception
there — including the HTTPException raised on `success` being falsy — is
re-raised as a 502), and the final `OCRResponse(**final_data)`. -/
def finalizeAndSubmit (w : World) (base64_image1 base64_image2_cleaned : String)
    (final_data : JObj) (evs : List CallEvent) :
    Except ErrResp OCRResponse × List CallEvent :=
  match escapePhone final_data with
  | none => (.error ⟨500, .generic "AttributeError: startswith"⟩, evs)
  | some fd1 =>
    let fd2 := dropSlogan fd1
    let payload : SinkPayload :=
      { action := "save"
        photo1Base64 := base64_image1
        photo2Base64 := if base64_image2_cleaned ≠ "" then base64_image2_cleaned else ""
        extractedData := fd2 }
    let evs' := evs ++ [CallEvent.sinkPost payload]
    match w.sinkNet with
    | .failure msg =>
      (.error ⟨502, .appsScript ("Apps Script Submission Failed: " ++ msg)⟩, evs')
    | .ok body =>
      match body with
      | .obj save_result =>
        if (jgetD save_result "success" .null).truthy then
          match mkOCRResponse fd2 with
          | some resp => (.ok resp, evs')
          | none => (.error ⟨500, .generic "pydantic ValidationError"⟩, evs')
        else
          (.error ⟨502, .appsScript ("Apps Script Submission Failed: 500: Google Script Error: "
            ++ pyStr (jgetD save_result "message" .null))⟩, evs')
      | _ =>
        (.error ⟨502, .appsScript "Apps Script Submission Failed: AttributeError: get"⟩, evs')

/-- The endpoint body `perform_ocr(request_data)` (main.py lines 107-292),
returning the HTTP outcome together with the trace of outbound calls. -/
def performOcr (cfg : Config) (w : World) (req : OCRRequest) :
    Except ErrResp OCRResponse × List CallEvent :=
  let base64_image1 := cleanImage1 req.base64Image1
  let base64_image2_cleaned := cleanImage2 req.base64Image2
  let evs0 := [CallEvent.openaiExtract]
  match w.extractReply with
  | none => (.error ⟨500, .generic "openai extraction call raised"⟩, evs0)
  | some content =>
    match parse_openai_json w.jsonLoads content with
    | some (.obj ocr_data) =>
      let search_query := buildSearchQuery ocr_data
      -- search_query is handed to search_google as the q request parameter;
      -- the HTTP layer stringifies it, so the event records its str() form
      let evs1 :=
        if search_query.truthy then
          evs0 ++ [CallEvent.searchValidation (pyStr search_query) 3]
        else evs0
      -- the validation search result feeds only the validation prompt and is
      -- absorbed by the validateReply oracle
      let _google_results_list : Option JVal :=
        if search_query.truthy then search_google cfg w.searchNet (pyStr search_query) 3
        else none
      let evs2 := evs1 ++ [CallEvent.openaiValidate]
      match w.validateReply with
      | none => (.error ⟨500, .generic "openai validation call raised"⟩, evs2)
      | some validated_data_str =>
        match w.jsonLoads validated_data_str with
        | none => (.error ⟨500, .generic "json.loads failed on validation reply"⟩, evs2)
        | some vval =>
          match vval with
          | .obj validated_data =>
            let validated := (jgetD validated_data "is_validated" .null).truthy
            let evs3 :=
              if validated then
                evs2 ++ [CallEvent.searchEnrichment (contactQuery validated_data) 3]
              else evs2
            let enrichment_search_results : Option JVal :=
              if validated then
                search_google cfg w.searchNet (contactQuery validated_data) 3
              else none
            match enrichment_search_results with
            | some esr =>
              if esr.truthy then
                let evs4 := evs3 ++ [CallEvent.openaiEnrich]
                match w.enrichReply with
                | none => (.error ⟨500, .generic "openai enrichment call raised"⟩, evs4)
                | some final_data_str =>
                  match w.jsonLoads final_data_str with
                  | none =>
                    (.error ⟨500, .generic "json.loads failed on enrichment reply"⟩, evs4)
                  | some fval =>
                    match fval with
                    | .obj final_data =>
                      finalizeAndSubmit w base64_image1 base64_image2_cleaned final_data evs4
                    | _ => (.error ⟨500, .generic "AttributeError: get"⟩, evs4)
              else
                finalizeAndSubmit w base64_image1 base64_image2_cleaned validated_data evs3
            | none =>
              finalizeAndSubmit w base64_image1 base64_image2_cleaned validated_data evs3
          | _ => (.error ⟨500, .generic "AttributeError: get"⟩, evs2)
    | _ => (.error ⟨500, .generic "extraction reply is not a JSON object"⟩, evs0)

/- ===== Event classifiers ===== -/

/-- Recognizes the sink submission event. -/
def isSinkEv : CallEvent → Bool
  | .sinkPost _ => true
  | _ => false

/-- Recognizes the enrichment generation call. -/
def isEnrichEv : CallEvent → Bool
  | .openaiEnrich => true
  | _ => false

/-- Recognizes the validation-stage search call. -/
def isSearchValidationEv : CallEvent → Bool
  | .searchValidation _ _ => true
  | _ => false

/-- Recognizes the enrichment-stage search call. -/
def isSearchEnrichmentEv : CallEvent → Bool
  | .searchEnrichment _ _ => true
  | _ => false

/-- A sink outcome that the code treats as a failure: transport error,
non-object reply, or a reply whose `success` is falsy. -/
def sinkFailing : SinkNet → Bool
  | .failure _ => true
  | .ok (.obj o) => !(jgetD o "success" .null).truthy
  | .ok _ => true

/- ===== Specification-side definitions (for refinement claims) ===== -/

/-- Modelled from the spec wording of the query precedence (spec section 4.1
step 3): company+slogan, else name+company, else company alone, else slogan
alone, else name alone, else no search at all (`none`).  Empty string counts
as absent.  This is the spec-side counterpart compared against
`buildSearchQuery`, which is translated from the source. -/
def specSearchQuery (company name slogan : String) : Option String :=
  if company ≠ "" ∧ slogan ≠ "" then some (company ++ " " ++ slogan)
  else if name ≠ "" ∧ company ≠ "" then some (name ++ " " ++ company)
  else if company ≠ "" then some company
  else if slogan ≠ "" then some slogan
  else if name ≠ "" then some name
  else none

/- ===== Concrete example runs (used by witnesses and counterexamples) ===== -/

/-- Extraction output of the example runs: the spec example mapping with a
phone number, company "Acme", slogan "Build the future", empty name. -/
def ocrEx : JObj :=
  [("company", .str "Acme"), ("name", .str ""), ("slogan", .str "Build the future"),
   ("phone", .str "+15550000000")]

/-- Validation output of the happy example run: validated, with website and
validation source filled in. -/
def vdEx : JObj :=
  [("company", .str "Acme"), ("name", .str ""), ("slogan", .str "Build the future"),
   ("phone", .str "+15550000000"), ("website", .str "https://acme.example"),
   ("validation_source", .str "https://acme.example"), ("is_validated", .bool true)]

/-- Enrichment output of the happy example run. -/
def fdEx : JObj :=
  vdEx ++ [("about_the_company", .str "Acme does things."), ("location", .str "Springfield")]

/-- Validation output of the non-validated example run: `is_validated` false
but a stale non-empty `validation_source` left in the reply. -/
def vdStale : JObj :=
  [("company", .str "Acme"), ("name", .str ""), ("slogan", .str "Build the future"),
   ("phone", .str "5550000000"), ("is_validated", .bool false),
   ("validation_source", .str "https://stale.example")]

/-- Decoder oracle of the example runs: reply tags to parsed mappings. -/
def jlEx : String → Option JVal := fun s =>
  if s = "EXT" then some (.obj ocrEx)
  else if s = "VAL" then some (.obj vdEx)
  else if s = "ENR" then some (.obj fdEx)
  else if s = "VALSTALE" then some (.obj vdStale)
  else none

/-- Search oracle of the example runs: one result for every query. -/
def netEx : String → Nat → SearchNet := fun _ _ => .ok (.obj [("items", .arr [.str "r"])])

/-- World of the happy example run: every stage succeeds. -/
def wEx : World :=
  { jsonLoads := jlEx
    extractReply := some "EXT"
    validateReply := some "VAL"
    enrichReply := some "ENR"
    searchNet := netEx
    sinkNet := .ok (.obj [("success", .bool true)]) }

/-- Configuration of the example runs: Google credentials present. -/
def cfgEx : Config := ⟨true⟩

/-- Request of the example runs: front image with a data-URI header, plain
back image. -/
def reqEx : OCRRequest := ⟨"data:image/jpeg;base64,IMG1", some "IMG2"⟩

/-- Final mapping of the happy example run after phone escaping and slogan
removal. -/
def fd2Ex : JObj :=
  [("company", .str "Acme"), ("name", .str ""),
   ("phone", .str (aposS ++ "+15550000000")), ("website", .str "https://acme.example"),
   ("validation_source", .str "https://acme.example"), ("is_validated", .bool true),
   ("about_the_company", .str "Acme does things."), ("location", .str "Springfield")]

/-- Response of the happy example run. -/
def respEx : OCRResponse :=
  { company := "Acme", name := "", title := "", phone := aposS ++ "+15550000000",
    email := "", address := "", website := "https://acme.example",
    validation_source := "https://acme.example", is_validated := true,
    about_the_company := "Acme does things.", location := "Springfield" }

/-- Enrichment query of the happy example run. -/
def cqEx : String := "\"Acme\" about description location contact info email phone address"

/-- Event trace of the happy example run. -/
def evsEx : List CallEvent :=
  [.openaiExtract, .searchValidation "Acme Build the future" 3, .openaiValidate,
   .searchEnrichment cqEx 3, .openaiEnrich,
   .sinkPost ⟨"save", "IMG1", "IMG2", fd2Ex⟩]

/-- World of the non-validated example run: the validation reply has a falsy
`is_validated` and a stale `validation_source`; no enrichment happens. -/
def wStale : World :=
  { wEx with validateReply := some "VALSTALE" }

/-- Final mapping of the non-validated example run (slogan dropped, phone
without plus sign left unchanged). -/
def fd2Stale : JObj :=
  [("company", .str "Acme"), ("name", .str ""), ("phone", .str "5550000000"),
   ("is_validated", .bool false), ("validation_source", .str "https://stale.example")]

/-- Response of the non-validated example run: the stale validation source
flows through to the caller. -/
def respStale : OCRResponse :=
  { company := "Acme", name := "", title := "", phone := "5550000000",
    email := "", address := "", website := "",
    validation_source := "https://stale.example", is_validated := false,
    about_the_company := "", location := "" }

/-- Event trace of the non-validated example run: no enrichment search, no
enrichment call. -/
def evsStale : List CallEvent :=
  [.openaiExtract, .searchValidation "Acme Build the future" 3, .openaiValidate,
   .sinkPost ⟨"save", "IMG1", "IMG2", fd2Stale⟩]

/-- World of the validated-but-no-enrichment-results example run: the search
endpoint always fails, so the enrichment search yields no results. -/
def wNoResults : World :=
  { wEx with searchNet := fun _ _ => .failure }

/-- Final mapping of the no-results example run: the validated mapping with
the phone escaped and the slogan dropped, nothing enriched. -/
def fd2NoRes : JObj :=
  [("company", .str "Acme"), ("name", .str ""),
   ("phone", .str (aposS ++ "+15550000000")), ("website", .str "https://acme.example"),
   ("validation_source", .str "https://acme.example"), ("is_validated", .bool true)]

/-- Response of the no-results example run. -/
def respNoRes : OCRResponse :=
  { company := "Acme", name := "", title := "", phone := aposS ++ "+15550000000",
    email := "", address := "", website := "https://acme.example",
    validation_source := "https://acme.example", is_validated := true,
    about_the_company := "", location := "" }

/-- Event trace of the no-results example run: the enrichment search is
attempted but no enrichment generation call follows. -/
def evsNoRes : List CallEvent :=
  [.openaiExtract, .searchValidation "Acme Build the future" 3, .openaiValidate,
   .searchEnrichment cqEx 3, .sinkPost ⟨"save", "IMG1", "IMG2", fd2NoRes⟩]

/-- World of the sink-failure example run: everything succeeds until the
Apps Script reply reports `success: false`. -/
def wSinkFail : World :=
  { wEx with sinkNet := .ok (.obj [("success", .bool false), ("message", .str "quota")]) }

/-- World of the malformed-extraction example run: the extraction reply does
not decode to a JSON object. -/
def wBadParse : World :=
  { wEx with extractReply := some "BAD" }

/- ===== Lemmas about the Python string primitives ===== -/

theorem isPrefixOf_append_self (sep r : List Char) : sep.isPrefixOf (sep ++ r) = true := by
  rw [List.isPrefixOf_iff_prefix]
  exact List.prefix_append sep r

theorem isPrefixOf_cons_of_ne {c₀ c : Char} (st rest : List Char) (hc : c ≠ c₀) :
    (c₀ :: st).isPrefixOf (c :: rest) = false := by
  show ((c₀ == c) && st.isPrefixOf rest) = false
  have : (c₀ == c) = false := beq_eq_false_iff_ne.mpr (Ne.symm hc)
  rw [this]
  simp

theorem occursIn_cons (sep : List Char) (c : Char) (cs : List Char) :
    occursIn sep (c :: cs) = (sep.isPrefixOf (c :: cs) || occursIn sep cs) := rfl

theorem splitGo_fuel_zero (sep acc rest : List Char) :
    splitGo sep 0 acc rest = [acc.reverse ++ rest] := rfl

theorem splitGo_fuel_nil (sep : List Char) (f : Nat) (acc : List Char) :
    splitGo sep (f + 1) acc [] = [acc.reverse] := rfl

theorem splitGo_fuel_cons (sep : List Char) (f : Nat) (acc : List Char) (c : Char)
    (cs : List Char) :
    splitGo sep (f + 1) acc (c :: cs) =
      if sep.isPrefixOf (c :: cs) then
        acc.reverse :: splitGo sep f [] (cs.drop (sep.length - 1))
      else splitGo sep f (c :: acc) cs := rfl

theorem occursIn_of_head (c : Char) (st r : List Char) :
    occursIn (c :: st) ((c :: st) ++ r) = true := by
  show occursIn (c :: st) (c :: (st ++ r)) = true
  rw [occursIn_cons, show c :: (st ++ r) = (c :: st) ++ r from rfl, isPrefixOf_append_self]
  simp

theorem occursIn_append_free {c₀ : Char} (st pre t : List Char)
    (h : ∀ c ∈ pre, c ≠ c₀) :
    occursIn (c₀ :: st) (pre ++ t) = occursIn (c₀ :: st) t := by
  induction pre with
  | nil => rfl
  | cons c cs ih =>
    have hc : c ≠ c₀ := h c (by simp)
    have hcs : ∀ x ∈ cs, x ≠ c₀ := fun x hx => h x (by simp [hx])
    show occursIn (c₀ :: st) (c :: (cs ++ t)) = _
    rw [occursIn_cons, isPrefixOf_cons_of_ne _ _ hc, ih hcs]
    simp

theorem splitGo_no_occ (sep : List Char) (fuel : Nat) (acc l : List Char)
    (h : occursIn sep l = false) : splitGo sep fuel acc l = [acc.reverse ++ l] := by
  induction fuel generalizing acc l with
  | zero => rfl
  | succ f ih =>
    cases l with
    | nil => rw [splitGo_fuel_nil]; simp
    | cons c cs =>
      rw [occursIn_cons] at h
      simp only [Bool.or_eq_false_iff] at h
      rw [splitGo_fuel_cons, h.1, if_neg (by simp), ih (c :: acc) cs h.2]
      simp

theorem splitGo_match (sep rest : List Char) (fuel : Nat) (acc : List Char) (hne : sep ≠ []) :
    splitGo sep (fuel + 1) acc (sep ++ rest) = acc.reverse :: splitGo sep fuel [] rest := by
  cases sep with
  | nil => exact absurd rfl hne
  | cons c st =>
    show splitGo (c :: st) (fuel + 1) acc (c :: (st ++ rest)) = _
    rw [splitGo_fuel_cons,
      show (c :: st).isPrefixOf (c :: (st ++ rest)) = true from isPrefixOf_append_self _ _,
      if_pos rfl]
    congr 1
    rw [show (c :: st).length - 1 = st.length by simp, List.drop_left]

theorem splitGo_scan (c₀ : Char) (st pre l acc : List Char) (f : Nat)
    (h : ∀ c ∈ pre, c ≠ c₀) :
    splitGo (c₀ :: st) (pre.length + f) acc (pre ++ l) =
      splitGo (c₀ :: st) f (pre.reverse ++ acc) l := by
  induction pre generalizing acc with
  | nil => simp
  | cons c cs ih =>
    have hc : c ≠ c₀ := h c (by simp)
    have hcs : ∀ x ∈ cs, x ≠ c₀ := fun x hx => h x (by simp [hx])
    show splitGo (c₀ :: st) (cs.length + 1 + f) acc (c :: (cs ++ l)) = _
    rw [show cs.length + 1 + f = (cs.length + f) + 1 by omega, splitGo_fuel_cons,
      isPrefixOf_cons_of_ne _ _ hc, if_neg (by simp), ih (c :: acc) hcs]
    congr 1
    simp

theorem occursIn_single_free (c₀ : Char) (l : List Char) (h : ∀ c ∈ l, c ≠ c₀) :
    occursIn [c₀] l = false := by
  have := occursIn_append_free ([] : List Char) l [] h
  simpa using this

theorem splitList_head_match (sep rest : List Char) (hne : sep ≠ []) :
    splitList sep (sep ++ rest) = [] :: splitGo sep (rest.length + (sep.length - 1)) [] rest := by
  unfold splitList
  have h1 : (sep ++ rest).length = (rest.length + (sep.length - 1)) + 1 := by
    have : sep.length ≥ 1 := by
      cases sep with
      | nil => exact absurd rfl hne
      | cons a b => simp
    simp [List.length_append]
    omega
  rw [h1, splitGo_match sep rest _ [] hne]
  rfl

theorem splitList_comma_single (a b : List Char)
    (ha : ∀ c ∈ a, c ≠ ',') (hb : ∀ c ∈ b, c ≠ ',') :
    splitList [','] (a ++ ',' :: b) = [a, b] := by
  unfold splitList
  rw [show (a ++ ',' :: b).length = a.length + (b.length + 1) by simp,
    splitGo_scan ',' [] a (',' :: b) [] (b.length + 1) ha,
    show (',' :: b) = [','] ++ b from rfl,
    splitGo_match [','] b b.length (a.reverse ++ []) (by simp),
    splitGo_no_occ [','] b.length [] b (occursIn_single_free ',' b hb)]
  simp

theorem splitList_comma_two (a b t : List Char)
    (ha : ∀ c ∈ a, c ≠ ',') (hb : ∀ c ∈ b, c ≠ ',') :
    splitList [','] (a ++ ',' :: (b ++ ',' :: t)) =
      a :: b :: splitGo [','] t.length [] t := by
  unfold splitList
  rw [show (a ++ ',' :: (b ++ ',' :: t)).length =
        a.length + ((b ++ ',' :: t).length + 1) by simp,
    splitGo_scan ',' [] a (',' :: (b ++ ',' :: t)) [] ((b ++ ',' :: t).length + 1) ha,
    show (',' :: (b ++ ',' :: t)) = [','] ++ (b ++ ',' :: t) from rfl,
    splitGo_match [','] (b ++ ',' :: t) (b ++ ',' :: t).length (a.reverse ++ []) (by simp),
    show (b ++ ',' :: t).length = b.length + (t.length + 1) by simp,
    splitGo_scan ',' [] b (',' :: t) [] (t.length + 1) hb,
    show (',' :: t) = [','] ++ t from rfl,
    splitGo_match [','] t t.length (b.reverse ++ []) (by simp)]
  simp

theorem cleanImage1_no_comma (s : String) (h : pyContains "," s = false) :
    cleanImage1 s = s := by
  unfold cleanImage1
  rw [h]
  simp

theorem cleanImage1_single_comma (a b : String)
    (ha : ∀ c ∈ a.data, c ≠ ',') (hb : ∀ c ∈ b.data, c ≠ ',') :
    cleanImage1 (a ++ "," ++ b) = b := by
  have hdata : (a ++ "," ++ b).data = a.data ++ ',' :: b.data := by
    show (a.data ++ [',']) ++ b.data = a.data ++ ',' :: b.data
    simp
  have hocc : pyContains "," (a ++ "," ++ b) = true := by
    unfold pyContains
    rw [show (",").data = [','] from rfl, hdata,
      occursIn_append_free [] a.data (',' :: b.data) ha]
    exact occursIn_of_head ',' [] b.data
  unfold cleanImage1
  rw [hocc, if_pos rfl]
  unfold pySplit
  rw [show (",").data = [','] from rfl, hdata, splitList_comma_single a.data b.data ha hb]
  rfl

theorem cleanImage1_two_commas (a b t : String)
    (ha : ∀ c ∈ a.data, c ≠ ',') (hb : ∀ c ∈ b.data, c ≠ ',') :
    cleanImage1 (a ++ "," ++ b ++ "," ++ t) = b := by
  have hdata : (a ++ "," ++ b ++ "," ++ t).data
      = a.data ++ ',' :: (b.data ++ ',' :: t.data) := by
    show ((a.data ++ [',']) ++ b.data ++ [',']) ++ t.data = _
    simp
  have hocc : pyContains "," (a ++ "," ++ b ++ "," ++ t) = true := by
    unfold pyContains
    rw [show (",").data = [','] from rfl, hdata,
      occursIn_append_free [] a.data (',' :: (b.data ++ ',' :: t.data)) ha]
    exact occursIn_of_head ',' [] (b.data ++ ',' :: t.data)
  unfold cleanImage1
  rw [hocc, if_pos rfl]
  unfold pySplit
  rw [show (",").data = [','] from rfl, hdata, splitList_comma_two a.data b.data t.data ha hb]
  rfl

theorem splitGo_match_self (sep : List Char) (f : Nat) (acc : List Char) (hne : sep ≠ []) :
    splitGo sep (f + 1) acc sep = acc.reverse :: splitGo sep f [] [] := by
  have h := splitGo_match sep [] f acc hne
  rwa [List.append_nil] at h

theorem cleanImage2_some (s : String) (h : s ≠ "") :
    cleanImage2 (some s) = cleanImage1 s := by
  show (if s = "" then ""
    else if pyContains "," s = true then (pySplit s ",").getD 1 "" else s) = cleanImage1 s
  rw [if_neg h]
  rfl

theorem parse_openai_json_fenced (jl : String → Option JVal) (body : String)
    (hb : ∀ c ∈ body.data, c ≠ '`') :
    parse_openai_json jl ("```json" ++ body ++ "```") = jl (pyStrip body) := by
  have hdata : ("```json" ++ body ++ "```").data
      = "```json".data ++ (body.data ++ "```".data) := by
    show ("```json".data ++ body.data) ++ "```".data = _
    simp
  have hocc : pyContains "```json" ("```json" ++ body ++ "```") = true := by
    unfold pyContains
    rw [hdata, show "```json".data = '`' :: "``json".data from rfl]
    exact occursIn_of_head '`' "``json".data (body.data ++ "```".data)
  show jl (if pyContains "```json" ("```json" ++ body ++ "```") = true then
      pyStrip ((pySplit ((pySplit ("```json" ++ body ++ "```") "```json").getD 1 "")
        "```").getD 0 "") else ("```json" ++ body ++ "```")) = jl (pyStrip body)
  rw [hocc, if_pos rfl]
  have hsplit1 : (pySplit ("```json" ++ body ++ "```") "```json").getD 1 ""
      = String.mk (body.data ++ "```".data) := by
    unfold pySplit
    rw [hdata, splitList_head_match "```json".data (body.data ++ "```".data) (by
      intro hcontra
      exact absurd (congrArg List.length hcontra) (by simp))]
    rw [splitGo_no_occ "```json".data _ [] (body.data ++ "```".data) (by
      rw [show "```json".data = '`' :: "``json".data from rfl,
        occursIn_append_free "``json".data body.data "```".data hb]
      rfl)]
    rfl
  rw [hsplit1]
  have hsplit2 : (pySplit (String.mk (body.data ++ "```".data)) "```").getD 0 ""
      = body := by
    unfold pySplit splitList
    rw [show (String.mk (body.data ++ "```".data)).data = body.data ++ "```".data from rfl,
      show (body.data ++ "```".data).length = body.data.length + 3 by simp,
      show "```".data = '`' :: "``".data from rfl,
      splitGo_scan '`' "``".data body.data ('`' :: "``".data) [] 3 hb]
    rw [show (3 : Nat) = 2 + 1 from rfl,
      splitGo_match_self ('`' :: "``".data) 2 (body.data.reverse ++ []) (by simp)]
    simp
  rw [hsplit2]

/- ===== Lemmas about dict operations and finalization ===== -/

theorem jget_jset_self (o : JObj) (k : String) (v : JVal) :
    jget (jset o k v) k = some v := by
  induction o with
  | nil => simp [jset, jget]
  | cons hd tl ih =>
    obtain ⟨k₂, v₂⟩ := hd
    by_cases hk : k₂ = k
    · simp [jset, jget, hk]
    · simp [jset, jget, hk, ih]

theorem jget_jset_ne (o : JObj) (k : String) (v : JVal) (k₂ : String) (h : k₂ ≠ k) :
    jget (jset o k v) k₂ = jget o k₂ := by
  have hks : k ≠ k₂ := fun hc => h hc.symm
  induction o with
  | nil => simp [jset, jget, hks]
  | cons hd tl ih =>
    obtain ⟨k₃, v₃⟩ := hd
    by_cases hk : k₃ = k
    · subst hk
      simp [jset, jget, hks]
    · simp [jset, jget, hk, ih]

theorem jget_jerase_ne (o : JObj) (k k₂ : String) (h : k₂ ≠ k) :
    jget (jerase o k) k₂ = jget o k₂ := by
  have hks : k ≠ k₂ := fun hc => h hc.symm
  induction o with
  | nil => simp [jerase]
  | cons hd tl ih =>
    obtain ⟨k₃, v₃⟩ := hd
    by_cases hk : k₃ = k
    · subst hk
      simp [jerase, jget, hks]
    · simp [jerase, jget, hk, ih]

theorem jget_dropSlogan_ne (o : JObj) (k : String) (h : k ≠ "slogan") :
    jget (dropSlogan o) k = jget o k := by
  unfold dropSlogan
  by_cases hs : jhasKey o "slogan" = true
  · rw [if_pos hs, jget_jerase_ne o "slogan" k h]
  · rw [if_neg hs]

theorem escapePhone_get_ne (fd fd₁ : JObj) (k : String)
    (h : escapePhone fd = some fd₁) (hk : k ≠ "phone") : jget fd₁ k = jget fd k := by
  unfold escapePhone at h
  by_cases ht : (jgetD fd "phone" (.str "")).truthy = true
  · rw [if_pos ht] at h
    cases hp : jgetD fd "phone" (.str "") with
    | str s =>
      rw [hp] at h
      simp only [Option.some.injEq] at h
      subst h
      by_cases hsw : pyStartsWith s "+" = true
      · rw [if_pos hsw, jget_jset_ne fd "phone" _ k hk]
      · rw [if_neg hsw]
    | bool b => rw [hp] at h; simp at h
    | null => rw [hp] at h; simp at h
    | num n => rw [hp] at h; simp at h
    | arr l => rw [hp] at h; simp at h
    | obj o => rw [hp] at h; simp at h
  · rw [if_neg ht] at h
    simp only [Option.some.injEq] at h
    subst h
    rfl

theorem mkOCRResponse_ok (o : JObj) (r : OCRResponse) (h : mkOCRResponse o = some r) :
    r = { company := (fieldStr o "company").getD ""
          name := (fieldStr o "name").getD ""
          title := (fieldStr o "title").getD ""
          phone := (fieldStr o "phone").getD ""
          email := (fieldStr o "email").getD ""
          address := (fieldStr o "address").getD ""
          website := (fieldStr o "website").getD ""
          validation_source := (fieldStr o "validation_source").getD ""
          is_validated := (fieldBool o "is_validated").getD false
          about_the_company := (fieldStr o "about_the_company").getD ""
          location := (fieldStr o "location").getD "" } := by
  unfold mkOCRResponse at h
  by_cases hok : pydanticOk o = true
  · rw [if_pos hok] at h
    exact (Option.some.injEq _ _ ▸ h).symm
  · rw [if_neg hok] at h
    exact absurd h (by simp)

/- ===== Run characterization ===== -/

theorem finalizeAndSubmit_char (w : World) (img1 img2 : String) (fd : JObj)
    (evs : List CallEvent) (res : Except ErrResp OCRResponse) (evs' : List CallEvent)
    (h : finalizeAndSubmit w img1 img2 fd evs = (res, evs')) :
    (escapePhone fd = none ∧ evs' = evs ∧ ∃ m, res = .error ⟨500, .generic m⟩) ∨
    (∃ fd₁, escapePhone fd = some fd₁ ∧
      evs' = evs ++ [CallEvent.sinkPost
        ⟨"save", img1, if img2 ≠ "" then img2 else "", dropSlogan fd₁⟩] ∧
      ((sinkFailing w.sinkNet = true ∧ ∃ m, res = .error ⟨502, .appsScript m⟩) ∨
       (sinkFailing w.sinkNet = false ∧
         ∃ r, mkOCRResponse (dropSlogan fd₁) = some r ∧ res = .ok r) ∨
       (sinkFailing w.sinkNet = false ∧ mkOCRResponse (dropSlogan fd₁) = none ∧
         ∃ m, res = .error ⟨500, .generic m⟩))) := by
  unfold finalizeAndSubmit at h
  cases hesc : escapePhone fd with
  | none =>
    rw [hesc] at h
    simp only [] at h
    injection h with h1 h2
    exact Or.inl ⟨rfl, h2.symm, _, h1.symm⟩
  | some fd₁ =>
    rw [hesc] at h
    simp only [] at h
    refine Or.inr ⟨fd₁, rfl, ?_⟩
    cases hnet : w.sinkNet with
    | failure msg =>
      rw [hnet] at h
      simp only [] at h
      injection h with h1 h2
      exact ⟨h2.symm, Or.inl ⟨by simp [sinkFailing, hnet], _, h1.symm⟩⟩
    | ok body =>
      rw [hnet] at h
      cases body with
      | obj save_result =>
        simp only [] at h
        by_cases hsucc : (jgetD save_result "success" .null).truthy = true
        · rw [if_pos hsucc] at h
          cases hmk : mkOCRResponse (dropSlogan fd₁) with
          | some r =>
            rw [hmk] at h
            simp only [] at h
            injection h with h1 h2
            exact ⟨h2.symm, Or.inr (Or.inl ⟨by simp [sinkFailing, hnet, hsucc], r, rfl, h1.symm⟩)⟩
          | none =>
            rw [hmk] at h
            simp only [] at h
            injection h with h1 h2
            exact ⟨h2.symm, Or.inr (Or.inr ⟨by simp [sinkFailing, hnet, hsucc], rfl, _, h1.symm⟩)⟩
        · rw [if_neg hsucc] at h
          injection h with h1 h2
          refine ⟨h2.symm, Or.inl ⟨?_, _, h1.symm⟩⟩
          simp only [sinkFailing, hnet, Bool.not_eq_true] at hsucc ⊢
          rw [hsucc]
          rfl
      | str s =>
        simp only [] at h
        injection h with h1 h2
        exact ⟨h2.symm, Or.inl ⟨by simp [sinkFailing, hnet], _, h1.symm⟩⟩
      | bool b =>
        simp only [] at h
        injection h with h1 h2
        exact ⟨h2.symm, Or.inl ⟨by simp [sinkFailing, hnet], _, h1.symm⟩⟩
      | null =>
        simp only [] at h
        injection h with h1 h2
        exact ⟨h2.symm, Or.inl ⟨by simp [sinkFailing, hnet], _, h1.symm⟩⟩
      | num n =>
        simp only [] at h
        injection h with h1 h2
        exact ⟨h2.symm, Or.inl ⟨by simp [sinkFailing, hnet], _, h1.symm⟩⟩
      | arr l =>
        simp only [] at h
        injection h with h1 h2
        exact ⟨h2.symm, Or.inl ⟨by simp [sinkFailing, hnet], _, h1.symm⟩⟩

theorem if_ne_empty_self (s : String) : (if s ≠ "" then s else "") = s := by
  by_cases hs : s = ""
  · simp [hs]
  · simp [hs]

theorem performOcr_sink_char (cfg : Config) (w : World) (req : OCRRequest)
    (res : Except ErrResp OCRResponse) (evs : List CallEvent)
    (h : performOcr cfg w req = (res, evs)) :
    (evs.filter isSinkEv = [] ∧ ∃ m, res = .error ⟨500, .generic m⟩) ∨
    (∃ fd₁ evs₀, evs₀.filter isSinkEv = [] ∧
      evs = evs₀ ++ [CallEvent.sinkPost ⟨"save", cleanImage1 req.base64Image1,
          cleanImage2 req.base64Image2, dropSlogan fd₁⟩] ∧
      (∃ fd₀, escapePhone fd₀ = some fd₁) ∧
      ((sinkFailing w.sinkNet = true ∧ ∃ m, res = .error ⟨502, .appsScript m⟩) ∨
       (sinkFailing w.sinkNet = false ∧
         ∃ r, mkOCRResponse (dropSlogan fd₁) = some r ∧ res = .ok r) ∨
       (sinkFailing w.sinkNet = false ∧ mkOCRResponse (dropSlogan fd₁) = none ∧
         ∃ m, res = .error ⟨500, .generic m⟩))) := by
  have finLeaf : ∀ (fd : JObj) (evs₀ : List CallEvent),
      evs₀.filter isSinkEv = [] →
      finalizeAndSubmit w (cleanImage1 req.base64Image1) (cleanImage2 req.base64Image2)
        fd evs₀ = (res, evs) →
      (evs.filter isSinkEv = [] ∧ ∃ m, res = .error ⟨500, .generic m⟩) ∨
      (∃ fd₁ evs₀, evs₀.filter isSinkEv = [] ∧
        evs = evs₀ ++ [CallEvent.sinkPost ⟨"save", cleanImage1 req.base64Image1,
            cleanImage2 req.base64Image2, dropSlogan fd₁⟩] ∧
        (∃ fd₀, escapePhone fd₀ = some fd₁) ∧
        ((sinkFailing w.sinkNet = true ∧ ∃ m, res = .error ⟨502, .appsScript m⟩) ∨
         (sinkFailing w.sinkNet = false ∧
           ∃ r, mkOCRResponse (dropSlogan fd₁) = some r ∧ res = .ok r) ∨
         (sinkFailing w.sinkNet = false ∧ mkOCRResponse (dropSlogan fd₁) = none ∧
           ∃ m, res = .error ⟨500, .generic m⟩))) := by
    intro fd evs₀ hfil hfin
    rcases finalizeAndSubmit_char w _ _ fd evs₀ res evs hfin with
      ⟨hesc, hevs, hm⟩ | ⟨fd₁, hesc, hevs, hrest⟩
    · exact Or.inl ⟨by rw [hevs, hfil], hm⟩
    · rw [if_ne_empty_self] at hevs
      exact Or.inr ⟨fd₁, evs₀, hfil, hevs, ⟨fd, hesc⟩, hrest⟩
  simp only [performOcr] at h
  cases hex : w.extractReply with
  | none =>
    rw [hex] at h
    simp only [] at h
    injection h with h1 h2
    refine Or.inl ⟨?_, _, h1.symm⟩
    rw [← h2]
    simp [isSinkEv]
  | some content =>
    rw [hex] at h
    simp only [] at h
    cases hparse : parse_openai_json w.jsonLoads content with
    | none =>
      rw [hparse] at h
      simp only [] at h
      injection h with h1 h2
      refine Or.inl ⟨?_, _, h1.symm⟩
      rw [← h2]
      simp [isSinkEv]
    | some pval =>
      rw [hparse] at h
      cases pval with
      | obj ocr =>
        simp only [] at h
        cases hvr : w.validateReply with
        | none =>
          rw [hvr] at h
          simp only [] at h
          injection h with h1 h2
          refine Or.inl ⟨?_, _, h1.symm⟩
          rw [← h2]
          simp [isSinkEv, List.filter_append, apply_ite (List.filter isSinkEv)]
        | some vs =>
          rw [hvr] at h
          simp only [] at h
          cases hload : w.jsonLoads vs with
          | none =>
            rw [hload] at h
            simp only [] at h
            injection h with h1 h2
            refine Or.inl ⟨?_, _, h1.symm⟩
            rw [← h2]
            simp [isSinkEv, List.filter_append, apply_ite (List.filter isSinkEv)]
          | some vval =>
            rw [hload] at h
            cases vval with
            | obj vd =>
              simp only [] at h
              cases hesr : (if (jgetD vd "is_validated" JVal.null).truthy = true then
                  search_google cfg w.searchNet (contactQuery vd) 3 else none) with
              | none =>
                rw [hesr] at h
                simp only [] at h
                exact finLeaf vd _ (by
                  simp [isSinkEv, List.filter_append, apply_ite (List.filter isSinkEv)]) h
              | some esr =>
                rw [hesr] at h
                simp only [] at h
                by_cases htr : esr.truthy = true
                · rw [if_pos htr] at h
                  cases her : w.enrichReply with
                  | none =>
                    rw [her] at h
                    simp only [] at h
                    injection h with h1 h2
                    refine Or.inl ⟨?_, _, h1.symm⟩
                    rw [← h2]
                    simp [isSinkEv, List.filter_append, apply_ite (List.filter isSinkEv)]
                  | some estr =>
                    rw [her] at h
                    simp only [] at h
                    cases hloadE : w.jsonLoads estr with
                    | none =>
                      rw [hloadE] at h
                      simp only [] at h
                      injection h with h1 h2
                      refine Or.inl ⟨?_, _, h1.symm⟩
                      rw [← h2]
                      simp [isSinkEv, List.filter_append, apply_ite (List.filter isSinkEv)]
                    | some fval =>
                      rw [hloadE] at h
                      cases fval with
                      | obj fd =>
                        simp only [] at h
                        exact finLeaf fd _ (by
                          simp [isSinkEv, List.filter_append,
                            apply_ite (List.filter isSinkEv)]) h
                      | str s =>
                        simp only [] at h
                        injection h with h1 h2
                        refine Or.inl ⟨?_, _, h1.symm⟩
                        rw [← h2]
                        simp [isSinkEv, List.filter_append, apply_ite (List.filter isSinkEv)]
                      | bool b =>
                        simp only [] at h
                        injection h with h1 h2
                        refine Or.inl ⟨?_, _, h1.symm⟩
                        rw [← h2]
                        simp [isSinkEv, List.filter_append, apply_ite (List.filter isSinkEv)]
                      | null =>
                        simp only [] at h
                        injection h with h1 h2
                        refine Or.inl ⟨?_, _, h1.symm⟩
                        rw [← h2]
                        simp [isSinkEv, List.filter_append, apply_ite (List.filter isSinkEv)]
                      | num n =>
                        simp only [] at h
                        injection h with h1 h2
                        refine Or.inl ⟨?_, _, h1.symm⟩
                        rw [← h2]
                        simp [isSinkEv, List.filter_append, apply_ite (List.filter isSinkEv)]
                      | arr l =>
                        simp only [] at h
                        injection h with h1 h2
                        refine Or.inl ⟨?_, _, h1.symm⟩
                        rw [← h2]
                        simp [isSinkEv, List.filter_append, apply_ite (List.filter isSinkEv)]
                · rw [if_neg htr] at h
                  exact finLeaf vd _ (by
                    simp [isSinkEv, List.filter_append, apply_ite (List.filter isSinkEv)]) h
            | str s =>
              simp only [] at h
              injection h with h1 h2
              refine Or.inl ⟨?_, _, h1.symm⟩
              rw [← h2]
              simp [isSinkEv, List.filter_append, apply_ite (List.filter isSinkEv)]
            | bool b =>
              simp only [] at h
              injection h with h1 h2
              refine Or.inl ⟨?_, _, h1.symm⟩
              rw [← h2]
              simp [isSinkEv, List.filter_append, apply_ite (List.filter isSinkEv)]
            | null =>
              simp only [] at h
              injection h with h1 h2
              refine Or.inl ⟨?_, _, h1.symm⟩
              rw [← h2]
              simp [isSinkEv, List.filter_append, apply_ite (List.filter isSinkEv)]
            | num n =>
              simp only [] at h
              injection h with h1 h2
              refine Or.inl ⟨?_, _, h1.symm⟩
              rw [← h2]
              simp [isSinkEv, List.filter_append, apply_ite (List.filter isSinkEv)]
            | arr l =>
              simp only [] at h
              injection h with h1 h2
              refine Or.inl ⟨?_, _, h1.symm⟩
              rw [← h2]
              simp [isSinkEv, List.filter_append, apply_ite (List.filter isSinkEv)]
      | str s =>
        simp only [] at h
        injection h with h1 h2
        refine Or.inl ⟨?_, _, h1.symm⟩
        rw [← h2]
        simp [isSinkEv]
      | bool b =>
        simp only [] at h
        injection h with h1 h2
        refine Or.inl ⟨?_, _, h1.symm⟩
        rw [← h2]
        simp [isSinkEv]
      | null =>
        simp only [] at h
        injection h with h1 h2
        refine Or.inl ⟨?_, _, h1.symm⟩
        rw [← h2]
        simp [isSinkEv]
      | num n =>
        simp only [] at h
        injection h with h1 h2
        refine Or.inl ⟨?_, _, h1.symm⟩
        rw [← h2]
        simp [isSinkEv]
      | arr l =>
        simp only [] at h
        injection h with h1 h2
        refine Or.inl ⟨?_, _, h1.symm⟩
        rw [← h2]
        simp [isSinkEv]

/- ===== Claim theorems ===== -/

/-- Claim C3: in finalization, a non-empty phone value starting with a plus
sign gets exactly one apostrophe prepended and no other key is touched by
this rule; a phone value not starting with a plus sign, or an empty phone,
is left unchanged. -/
theorem c3_phone_escape (fd : JObj) (p : String)
    (hp : jgetD fd "phone" (JVal.str "") = JVal.str p) :
    (p ≠ "" → pyStartsWith p "+" = true →
      escapePhone fd = some (jset fd "phone" (JVal.str (aposS ++ p))) ∧
      jget (jset fd "phone" (JVal.str (aposS ++ p))) "phone" =
        some (JVal.str (aposS ++ p)) ∧
      (∀ k, k ≠ "phone" → jget (jset fd "phone" (JVal.str (aposS ++ p))) k = jget fd k)) ∧
    ((p = "" ∨ pyStartsWith p "+" = false) → escapePhone fd = some fd) := by
  constructor
  · intro hne hsw
    refine ⟨?_, jget_jset_self fd "phone" _, fun k hk => jget_jset_ne fd "phone" _ k hk⟩
    unfold escapePhone
    rw [hp]
    rw [if_pos (by simp [JVal.truthy, hne])]
    simp [hsw]
  · intro hor
    unfold escapePhone
    rw [hp]
    rcases hor with he | hsw
    · rw [if_neg (by simp [JVal.truthy, he])]
    · by_cases he : p = ""
      · rw [if_neg (by simp [JVal.truthy, he])]
      · rw [if_pos (by simp [JVal.truthy, he])]
        simp only [hsw]
        rw [if_neg (by simp)]

/-- Claim C3 witness: the two spec examples, evaluated concretely. -/
theorem c3_phone_escape_witness :
    escapePhone [("phone", JVal.str "+14155551234")] =
      some [("phone", JVal.str (aposS ++ "+14155551234"))] ∧
    escapePhone [("phone", JVal.str "4155551234")] =
      some [("phone", JVal.str "4155551234")] := by
  constructor
  · have h := (c3_phone_escape [("phone", JVal.str "+14155551234")] "+14155551234" rfl).1
      (by decide) rfl
    exact h.1
  · exact (c3_phone_escape [("phone", JVal.str "4155551234")] "4155551234" rfl).2
      (Or.inr rfl)

/-- Claim C10: input normalization keeps only the substring between the
first and second comma (or everything after the sole comma), discarding any
prefix and anything after a second comma; a payload with no comma is used
unchanged; a non-empty back image is normalized the same way. -/
theorem c10_input_normalization :
    (∀ s, pyContains "," s = false → cleanImage1 s = s) ∧
    (∀ a b : String, (∀ c ∈ a.data, c ≠ ',') → (∀ c ∈ b.data, c ≠ ',') →
      cleanImage1 (a ++ "," ++ b) = b) ∧
    (∀ a b t : String, (∀ c ∈ a.data, c ≠ ',') → (∀ c ∈ b.data, c ≠ ',') →
      cleanImage1 (a ++ "," ++ b ++ "," ++ t) = b) ∧
    (∀ s, s ≠ "" → cleanImage2 (some s) = cleanImage1 s) :=
  ⟨cleanImage1_no_comma, cleanImage1_single_comma, cleanImage1_two_commas, cleanImage2_some⟩

/-- Claim C10 witness: concrete payloads with zero, one, and two commas;
content after a second comma is dropped even when it contains commas. -/
theorem c10_input_normalization_witness :
    cleanImage1 ("data:image/jpeg;base64" ++ "," ++ "PAYLOAD" ++ "," ++ "JUNK,MORE")
      = "PAYLOAD" ∧
    cleanImage1 ("header" ++ "," ++ "BODY") = "BODY" ∧
    cleanImage1 "plainbase64" = "plainbase64" ∧
    cleanImage2 (some "x,y") = cleanImage1 "x,y" := by
  refine ⟨?_, ?_, ?_, ?_⟩
  · exact c10_input_normalization.2.2.1 "data:image/jpeg;base64" "PAYLOAD" "JUNK,MORE"
      (by decide) (by decide)
  · exact c10_input_normalization.2.1 "header" "BODY" (by decide) (by decide)
  · exact c10_input_normalization.1 "plainbase64" (by decide)
  · exact c10_input_normalization.2.2.2 "x,y" (by decide)

theorem performOcr_validation_search_events (cfg : Config) (w : World) (req : OCRRequest)
    (content : String) (ocr : JObj) (res : Except ErrResp OCRResponse)
    (evs : List CallEvent)
    (hex : w.extractReply = some content)
    (hparse : parse_openai_json w.jsonLoads content = some (JVal.obj ocr))
    (h : performOcr cfg w req = (res, evs)) :
    evs.filter isSearchValidationEv =
      (if (buildSearchQuery ocr).truthy = true then
        [CallEvent.searchValidation (pyStr (buildSearchQuery ocr)) 3] else []) := by
  simp only [performOcr, hex, hparse] at h
  by_cases hq : (buildSearchQuery ocr).truthy = true <;>
    simp only [hq, if_true, if_false, Bool.false_eq_true, ite_true, ite_false] at h ⊢ <;>
    repeat' split at h
  all_goals
    first
    | (injection h with h1 h2
       rw [← h2]
       simp [isSearchValidationEv])
    | (rcases finalizeAndSubmit_char _ _ _ _ _ _ _ h with ⟨_, hevs, _⟩ | ⟨fd₁, _, hevs, _⟩ <;>
        rw [hevs] <;>
        simp [isSearchValidationEv])

/-- Claim C2: the validation search query follows the exact precedence
company+slogan, else name+company, else company alone, else slogan alone,
else name alone, else no search at all; in particular the Acme example
yields "Acme Build the future".  Stated as a refinement against the
spec-side `specSearchQuery` for string-valued fields, together with the run
level fact that the validation search call happens exactly when the built
query is truthy, with that query. -/
theorem c2_search_query_precedence :
    (∀ (o : JObj) (c n s : String),
      jgetD o "company" (JVal.str "") = JVal.str c →
      jgetD o "name" (JVal.str "") = JVal.str n →
      jgetD o "slogan" (JVal.str "") = JVal.str s →
      buildSearchQuery o = JVal.str ((specSearchQuery c n s).getD "")) ∧
    (buildSearchQuery [("company", JVal.str "Acme"), ("slogan", JVal.str "Build the future"),
        ("name", JVal.str "")] = JVal.str "Acme Build the future") ∧
    (∀ (cfg : Config) (w : World) (req : OCRRequest) (content : String) (ocr : JObj)
        (res : Except ErrResp OCRResponse) (evs : List CallEvent),
      w.extractReply = some content →
      parse_openai_json w.jsonLoads content = some (JVal.obj ocr) →
      performOcr cfg w req = (res, evs) →
      evs.filter isSearchValidationEv =
        (if (buildSearchQuery ocr).truthy = true then
          [CallEvent.searchValidation (pyStr (buildSearchQuery ocr)) 3] else [])) := by
  refine ⟨?_, rfl, performOcr_validation_search_events⟩
  intro o c n s hc hn hs
  unfold buildSearchQuery specSearchQuery
  rw [hc, hn, hs]
  by_cases h1 : c = "" <;> by_cases h2 : n = "" <;> by_cases h3 : s = "" <;>
    simp [JVal.truthy, pyStr, h1, h2, h3]

/-- Claim C2 witness: in the happy example run, extraction yields the Acme
mapping and the validation search event carries "Acme Build the future". -/
theorem c2_search_query_precedence_witness :
    parse_openai_json wEx.jsonLoads "EXT" = some (JVal.obj ocrEx) ∧
    evsEx.filter isSearchValidationEv = [CallEvent.searchValidation "Acme Build the future" 3] := by
  constructor
  · rfl
  · have h := c2_search_query_precedence.2.2 cfgEx wEx reqEx "EXT" ocrEx
      (Except.ok respEx) evsEx rfl rfl rfl
    rw [h]
    rfl

theorem performOcr_parse_failure (cfg : Config) (w : World) (req : OCRRequest)
    (content : String) (res : Except ErrResp OCRResponse) (evs : List CallEvent)
    (hex : w.extractReply = some content)
    (hbad : ∀ o, parse_openai_json w.jsonLoads content ≠ some (JVal.obj o))
    (h : performOcr cfg w req = (res, evs)) :
    ∃ m, res = Except.error ⟨500, ErrDetail.generic m⟩ := by
  simp only [performOcr, hex] at h
  cases hp : parse_openai_json w.jsonLoads content with
  | none =>
    injection h with h1 h2
    exact ⟨_, h1.symm⟩
  | some v =>
    cases v
    case obj o => exact absurd hp (hbad o)
    all_goals
      injection h with h1 h2
      exact ⟨_, h1.symm⟩

/-- Claim C6: a reply wrapping its JSON in a fenced block marked as JSON has
the leading "```json" fence and the trailing "```" fence stripped (and the
remainder whitespace-stripped) before the decoder runs; an unfenced reply is
decoded as-is; and when no JSON object can be parsed from the (possibly
stripped) reply, the request fails with an error — no silent defaulting. -/
theorem c6_fenced_parse_and_fatal_failure :
    (∀ (jl : String → Option JVal) (body : String), (∀ c ∈ body.data, c ≠ '`') →
      parse_openai_json jl ("```json" ++ body ++ "```") = jl (pyStrip body)) ∧
    (∀ (jl : String → Option JVal) (s : String), pyContains "```json" s = false →
      parse_openai_json jl s = jl s) ∧
    (∀ (cfg : Config) (w : World) (req : OCRRequest) (content : String)
        (res : Except ErrResp OCRResponse) (evs : List CallEvent),
      w.extractReply = some content →
      (∀ o, parse_openai_json w.jsonLoads content ≠ some (JVal.obj o)) →
      performOcr cfg w req = (res, evs) →
      ∃ m, res = Except.error ⟨500, ErrDetail.generic m⟩) := by
  refine ⟨parse_openai_json_fenced, ?_, performOcr_parse_failure⟩
  intro jl s hs
  unfold parse_openai_json
  rw [hs]
  simp

/-- Claim C6 witness: a concrete fenced reply is stripped before decoding
(for an arbitrary decoder), and the malformed-extraction example run ends in
a 500 error. -/
theorem c6_fenced_parse_and_fatal_failure_witness :
    parse_openai_json (fun s => some (JVal.str s)) ("```json" ++ " payload text " ++ "```")
      = some (JVal.str "payload text") ∧
    (∃ m, (performOcr cfgEx wBadParse reqEx).1 = Except.error ⟨500, ErrDetail.generic m⟩) := by
  constructor
  · have h := c6_fenced_parse_and_fatal_failure.1 (fun s => some (JVal.str s))
      " payload text " (by decide)
    rw [h]
    rfl
  · exact c6_fenced_parse_and_fatal_failure.2.2 cfgEx wBadParse reqEx "BAD"
      (performOcr cfgEx wBadParse reqEx).1 (performOcr cfgEx wBadParse reqEx).2 rfl
      (fun o hcon => by
        have hnone : (none : Option JVal) = some (JVal.obj o) := hcon
        exact Option.noConfusion hnone)
      rfl

/-- Claim C8: every failure of the search capability — missing credentials,
transport or HTTP error, a decoded reply without items, or an empty item
list — yields the no-evidence value None; and the run outcome depends on
the search network only through the value of `search_google`, so a search
failure can never abort the request or surface to the caller. -/
theorem c8_search_failures_swallowed :
    (∀ (net : String → Nat → SearchNet) (q : String) (n : Nat),
      search_google ⟨false⟩ net q n = none) ∧
    (∀ (cfg : Config) (net : String → Nat → SearchNet) (q : String) (n : Nat),
      net q n = SearchNet.failure → search_google cfg net q n = none) ∧
    (∀ (cfg : Config) (net : String → Nat → SearchNet) (q : String) (n : Nat) (body : JObj),
      net q n = SearchNet.ok (JVal.obj body) → jget body "items" = none →
      search_google cfg net q n = none) ∧
    (∀ (cfg : Config) (net : String → Nat → SearchNet) (q : String) (n : Nat) (body : JObj),
      net q n = SearchNet.ok (JVal.obj body) → jget body "items" = some (JVal.arr []) →
      search_google cfg net q n = none) ∧
    (∀ (cfg : Config) (w : World) (net₂ : String → Nat → SearchNet) (req : OCRRequest),
      (∀ q n, search_google cfg w.searchNet q n = search_google cfg net₂ q n) →
      performOcr cfg w req = performOcr cfg { w with searchNet := net₂ } req) := by
  refine ⟨?_, ?_, ?_, ?_, ?_⟩
  · intro net q n
    simp [search_google]
  · intro cfg net q n hnet
    unfold search_google
    rw [hnet]
    simp
  · intro cfg net q n body hnet hitems
    unfold search_google
    rw [hnet]
    simp only []
    rw [hitems]
    simp
  · intro cfg net q n body hnet hitems
    unfold search_google
    rw [hnet]
    simp only []
    rw [hitems]
    simp [pyLen]
  · intro cfg w net₂ req hagree
    simp only [performOcr, hagree]
    rfl

/-- Claim C8 witness: a world without Google credentials and a world whose
search endpoint always fails both get None from `search_google`, and
replacing an always-failing search network by another network with the same
`search_google` results leaves the whole run unchanged. -/
theorem c8_search_failures_swallowed_witness :
    search_google ⟨false⟩ netEx "Acme Build the future" 3 = none ∧
    ((fun _ _ => SearchNet.failure) : String → Nat → SearchNet) "q" 3 = SearchNet.failure ∧
    search_google cfgEx (fun _ _ => SearchNet.failure) "q" 3 = none ∧
    performOcr cfgEx wNoResults reqEx =
      performOcr cfgEx { wNoResults with searchNet := fun _ _ => .ok (JVal.obj []) } reqEx := by
  refine ⟨?_, rfl, ?_, ?_⟩
  · exact c8_search_failures_swallowed.1 netEx "Acme Build the future" 3
  · exact c8_search_failures_swallowed.2.1 cfgEx (fun _ _ => SearchNet.failure) "q" 3 rfl
  · exact c8_search_failures_swallowed.2.2.2.2 cfgEx wNoResults
      (fun _ _ => .ok (JVal.obj [])) reqEx (fun q n => rfl)

/-- Claim C7: for every run that reaches the submission step, a sink failure
(reply with falsy success, transport or non-2xx error, or undecodable
reply) aborts the request with a 502 Apps Script error — a failure shape
distinct from the 500 generic processing failures — and the caller never
receives a record. -/
theorem c7_sink_failure_fatal (cfg : Config) (w : World) (req : OCRRequest)
    (res : Except ErrResp OCRResponse) (evs : List CallEvent) (p : SinkPayload)
    (h : performOcr cfg w req = (res, evs))
    (hreach : CallEvent.sinkPost p ∈ evs)
    (hfail : sinkFailing w.sinkNet = true) :
    (∃ m, res = Except.error ⟨502, ErrDetail.appsScript m⟩) ∧
    ∀ r, res ≠ Except.ok r := by
  rcases performOcr_sink_char cfg w req res evs h with
    ⟨hfil, m, hres⟩ | ⟨fd₁, evs₀, hfil, hevs, _, hrest⟩
  · exfalso
    have hmem := List.mem_filter.mpr ⟨hreach, show isSinkEv (CallEvent.sinkPost p) = true from rfl⟩
    rw [hfil] at hmem
    exact absurd hmem (List.not_mem_nil _)
  · rcases hrest with ⟨_, m, hres⟩ | ⟨hok, _⟩ | ⟨hok, _, _⟩
    · exact ⟨⟨m, hres⟩, fun r hr => by rw [hres] at hr; exact Except.noConfusion hr⟩
    · rw [hok] at hfail
      exact absurd hfail (by simp)
    · rw [hok] at hfail
      exact absurd hfail (by simp)

/-- Claim C7 witness: the sink-failure example run (Apps Script replies
success=false) keeps its sink event, fails with a 502 Apps Script error,
and returns no record. -/
theorem c7_sink_failure_fatal_witness :
    CallEvent.sinkPost ⟨"save", "IMG1", "IMG2", fd2Ex⟩ ∈ (performOcr cfgEx wSinkFail reqEx).2 ∧
    sinkFailing wSinkFail.sinkNet = true ∧
    (∃ m, (performOcr cfgEx wSinkFail reqEx).1 = Except.error ⟨502, ErrDetail.appsScript m⟩) := by
  have hrun : performOcr cfgEx wSinkFail reqEx =
      ((performOcr cfgEx wSinkFail reqEx).1, (performOcr cfgEx wSinkFail reqEx).2) := rfl
  have hmem : CallEvent.sinkPost ⟨"save", "IMG1", "IMG2", fd2Ex⟩ ∈
      (performOcr cfgEx wSinkFail reqEx).2 := by
    show CallEvent.sinkPost ⟨"save", "IMG1", "IMG2", fd2Ex⟩ ∈ evsEx
    simp [evsEx]
  exact ⟨hmem, rfl,
    (c7_sink_failure_fatal cfgEx wSinkFail reqEx _ _ _ hrun hmem rfl).1⟩

/-- Claim C9: every run performs at most one sink call, and a sink call
carries the action identifier "save", the two normalized raw images (back
image as empty string when absent), and the finalized record (phone escaped
then slogan dropped); a successful response is validated from exactly the
submitted record. -/
theorem c9_sink_payload (cfg : Config) (w : World) (req : OCRRequest)
    (res : Except ErrResp OCRResponse) (evs : List CallEvent)
    (h : performOcr cfg w req = (res, evs)) :
    (evs.countP isSinkEv ≤ 1) ∧
    (∀ p, CallEvent.sinkPost p ∈ evs →
      p.action = "save" ∧
      p.photo1Base64 = cleanImage1 req.base64Image1 ∧
      p.photo2Base64 = cleanImage2 req.base64Image2 ∧
      (req.base64Image2 = none → p.photo2Base64 = "") ∧
      (∃ fd₀ fd₁, escapePhone fd₀ = some fd₁ ∧ p.extractedData = dropSlogan fd₁) ∧
      (∀ r, res = Except.ok r → mkOCRResponse p.extractedData = some r)) := by
  rcases performOcr_sink_char cfg w req res evs h with
    ⟨hfil, m, hres⟩ | ⟨fd₁, evs₀, hfil, hevs, ⟨fd₀, hesc⟩, hrest⟩
  · constructor
    · rw [List.countP_eq_length_filter, hfil]
      simp
    · intro p hp
      exfalso
      have hmem := List.mem_filter.mpr ⟨hp, show isSinkEv (CallEvent.sinkPost p) = true from rfl⟩
      rw [hfil] at hmem
      exact absurd hmem (List.not_mem_nil _)
  · constructor
    · rw [hevs, List.countP_append, List.countP_eq_length_filter, hfil]
      simp [List.countP_cons, isSinkEv]
    · intro p hp
      rw [hevs] at hp
      rcases List.mem_append.mp hp with hp₀ | hp₁
      · exfalso
        have hmem := List.mem_filter.mpr ⟨hp₀, show isSinkEv (CallEvent.sinkPost p) = true from rfl⟩
        rw [hfil] at hmem
        exact absurd hmem (List.not_mem_nil _)
      · have hpe := List.mem_singleton.mp hp₁
        injection hpe with hpp
        subst hpp
        refine ⟨rfl, rfl, rfl, fun h₂ => by rw [h₂]; rfl, ⟨fd₀, fd₁, hesc, rfl⟩, ?_⟩
        intro r hr
        rcases hrest with ⟨_, m, hres⟩ | ⟨_, r₂, hmk, hres⟩ | ⟨_, _, m, hres⟩
        · rw [hres] at hr
          exact absurd hr (by simp)
        · rw [hres] at hr
          injection hr with hrr
          subst hrr
          exact hmk
        · rw [hres] at hr
          exact absurd hr (by simp)

/-- Claim C9 witness: the happy example run performs exactly one sink call,
whose payload carries "save", the cleaned images, and the finalized record
that validates into the returned response. -/
theorem c9_sink_payload_witness :
    evsEx.countP isSinkEv ≤ 1 ∧
    mkOCRResponse fd2Ex = some respEx := by
  have h := c9_sink_payload cfgEx wEx reqEx (Except.ok respEx) evsEx rfl
  refine ⟨h.1, ?_⟩
  have hp := h.2 ⟨"save", "IMG1", "IMG2", fd2Ex⟩ (by simp [evsEx])
  exact hp.2.2.2.2.2 respEx rfl

/-- Claim C1: a request that completes successfully yields a response whose
JSON carries exactly the eleven ContactRecord fields in order — string
values, boolean for is_validated, never null or absent — and never a slogan
key; keys missing from the pipeline final mapping are backfilled with the
empty string (false for is_validated). -/
theorem c1_response_complete (cfg : Config) (w : World) (req : OCRRequest)
    (resp : OCRResponse) (evs : List CallEvent)
    (h : performOcr cfg w req = (Except.ok resp, evs)) :
    ((responseJson resp).map Prod.fst = elevenFieldNames) ∧
    (∀ v, ("slogan", v) ∉ responseJson resp) ∧
    (∀ k v, (k, v) ∈ responseJson resp →
      (if k = "is_validated" then ∃ b, v = JVal.bool b else ∃ s, v = JVal.str s)) ∧
    (∃ fd, mkOCRResponse fd = some resp ∧
      (∀ k, k ∈ strFieldNames → jget fd k = none →
        jget (responseJson resp) k = some (JVal.str "")) ∧
      (jget fd "is_validated" = none → resp.is_validated = false)) := by
  refine ⟨rfl, ?_, ?_, ?_⟩
  · intro v hv
    simp [responseJson] at hv
  · intro k v hkv
    simp only [responseJson, List.mem_cons, List.not_mem_nil, or_false,
      Prod.mk.injEq] at hkv
    rcases hkv with hkv | hkv | hkv | hkv | hkv | hkv | hkv | hkv | hkv | hkv | hkv
    all_goals
      obtain ⟨rfl, rfl⟩ := hkv
      simp
  · rcases performOcr_sink_char cfg w req (Except.ok resp) evs h with
      ⟨_, m, hres⟩ | ⟨fd₁, evs₀, _, _, _, hrest⟩
    · exact absurd hres (by simp)
    · rcases hrest with ⟨_, m, hres⟩ | ⟨_, r₂, hmk, hres⟩ | ⟨_, _, m, hres⟩
      · exact absurd hres (by simp)
      · have hrr : r₂ = resp := Except.ok.inj hres.symm
        subst hrr
        refine ⟨dropSlogan fd₁, hmk, ?_, ?_⟩
        · intro k hk hnone
          have hresp := mkOCRResponse_ok _ _ hmk
          subst hresp
          simp only [strFieldNames, List.mem_cons, List.not_mem_nil, or_false] at hk
          rcases hk with rfl | rfl | rfl | rfl | rfl | rfl | rfl | rfl | rfl | rfl <;>
            simp [responseJson, jget, fieldStr, hnone]
        · intro hnone
          have hresp := mkOCRResponse_ok _ _ hmk
          subst hresp
          simp [fieldBool, hnone]
      · exact absurd hres (by simp)

/-- Claim C1 witness: the happy example run succeeds, its response JSON has
the eleven field names and no slogan key, and the submitted mapping lacks
the title key while the response carries an empty title string. -/
theorem c1_response_complete_witness :
    (responseJson respEx).map Prod.fst = elevenFieldNames ∧
    (∀ v, ("slogan", v) ∉ responseJson respEx) ∧
    jget fd2Ex "title" = none ∧
    respEx.title = "" := by
  have h := c1_response_complete cfgEx wEx reqEx respEx evsEx rfl
  exact ⟨h.1, h.2.1, rfl, rfl⟩

theorem mkOCRResponse_validation_source (o : JObj) (r : OCRResponse)
    (h : mkOCRResponse o = some r) :
    jgetD o "validation_source" (JVal.str "") = JVal.str r.validation_source := by
  have hsome : (fieldStr o "validation_source").isSome := by
    unfold mkOCRResponse at h
    by_cases hok : pydanticOk o = true
    · unfold pydanticOk at hok
      simp only [Bool.and_eq_true, List.all_eq_true] at hok
      exact hok.1 "validation_source" (by simp [strFieldNames])
    · rw [if_neg hok] at h
      exact absurd h (by simp)
  have hr := mkOCRResponse_ok o r h
  subst hr
  cases hj : jget o "validation_source" with
  | none => simp [jgetD, hj, fieldStr]
  | some v =>
    unfold fieldStr at hsome
    rw [hj] at hsome
    cases v
    case str s => simp [jgetD, hj, fieldStr, asStr]
    all_goals simp [asStr] at hsome

/-- Claim C4 (amended): when the validation reply has a falsy or absent
is_validated, no enrichment search and no enrichment generation call occur,
and the validation_source of the final record is passed through from the
validation reply (empty when absent) — the code does not clear it itself. -/
theorem c4_no_enrichment_when_not_validated (cfg : Config) (w : World) (req : OCRRequest)
    (vs : String) (vd : JObj) (res : Except ErrResp OCRResponse) (evs : List CallEvent)
    (hvr : w.validateReply = some vs)
    (hload : w.jsonLoads vs = some (JVal.obj vd))
    (hfalsy : (jgetD vd "is_validated" JVal.null).truthy = false)
    (h : performOcr cfg w req = (res, evs)) :
    evs.filter isSearchEnrichmentEv = [] ∧
    evs.filter isEnrichEv = [] ∧
    (∀ resp, res = Except.ok resp →
      jgetD vd "validation_source" (JVal.str "") = JVal.str resp.validation_source) := by
  simp only [performOcr, hvr, hload, hfalsy, Bool.false_eq_true, if_false, ite_false] at h
  repeat' split at h
  all_goals first
    | (injection h with h1 h2
       refine ⟨?_, ?_, ?_⟩
       · rw [← h2]
         simp [isSearchEnrichmentEv, List.filter_append,
           apply_ite (List.filter isSearchEnrichmentEv)]
       · rw [← h2]
         simp [isEnrichEv, List.filter_append, apply_ite (List.filter isEnrichEv)]
       · intro resp hr
         rw [← h1] at hr
         exact absurd hr (by simp))
    | (rcases finalizeAndSubmit_char _ _ _ _ _ _ _ h with
        ⟨hescn, hevs, m, hres⟩ | ⟨fd₁, hesc, hevs, hrest⟩
       · refine ⟨?_, ?_, ?_⟩
         · rw [hevs]
           simp [isSearchEnrichmentEv, List.filter_append,
             apply_ite (List.filter isSearchEnrichmentEv)]
         · rw [hevs]
           simp [isEnrichEv, List.filter_append, apply_ite (List.filter isEnrichEv)]
         · intro resp hr
           rw [hres] at hr
           exact absurd hr (by simp)
       · refine ⟨?_, ?_, ?_⟩
         · rw [hevs]
           simp [isSearchEnrichmentEv, List.filter_append,
             apply_ite (List.filter isSearchEnrichmentEv)]
         · rw [hevs]
           simp [isEnrichEv, List.filter_append, apply_ite (List.filter isEnrichEv)]
         · intro resp hr
           rcases hrest with ⟨_, m, hres⟩ | ⟨_, r₂, hmk, hres⟩ | ⟨_, _, m, hres⟩
           · rw [hres] at hr
             exact absurd hr (by simp)
           · rw [hres] at hr
             have hrr := Except.ok.inj hr
             subst hrr
             have hvsrc := mkOCRResponse_validation_source _ _ hmk
             unfold jgetD at hvsrc ⊢
             rw [jget_dropSlogan_ne _ _ (by decide),
               escapePhone_get_ne _ _ _ hesc (by decide)] at hvsrc
             exact hvsrc
           · rw [hres] at hr
             exact absurd hr (by simp))

/-- Claim C4 counterexample: a run whose validation reply has is_validated
false but carries a non-empty validation_source completes successfully with
that non-empty validation_source in the final record, refuting the original
claim that it is always empty. -/
theorem c4_counterexample :
    wStale.validateReply = some "VALSTALE" ∧
    wStale.jsonLoads "VALSTALE" = some (JVal.obj vdStale) ∧
    (jgetD vdStale "is_validated" JVal.null).truthy = false ∧
    performOcr cfgEx wStale reqEx = (Except.ok respStale, evsStale) ∧
    respStale.validation_source ≠ "" :=
  ⟨rfl, rfl, rfl, rfl, by decide⟩

/-- Claim C4 witness: the non-validated example run has no enrichment
events and passes the stale validation_source through to the response. -/
theorem c4_no_enrichment_when_not_validated_witness :
    evsStale.filter isSearchEnrichmentEv = [] ∧
    evsStale.filter isEnrichEv = [] ∧
    jgetD vdStale "validation_source" (JVal.str "") = JVal.str respStale.validation_source := by
  have h := c4_no_enrichment_when_not_validated cfgEx wStale reqEx "VALSTALE" vdStale
    (Except.ok respStale) evsStale rfl rfl rfl rfl
  exact ⟨h.1, h.2.1, h.2.2 respStale rfl⟩

/-- Claim C5: when validation reports a genuine match but the enrichment
search yields no results (including when skipped for missing credentials),
no enrichment generation call is made and the final record is exactly the
validated record up to finalization (phone escaping, slogan removal). -/
theorem c5_no_enrichment_without_results (cfg : Config) (w : World) (req : OCRRequest)
    (vs : String) (vd : JObj) (res : Except ErrResp OCRResponse) (evs : List CallEvent)
    (hvr : w.validateReply = some vs)
    (hload : w.jsonLoads vs = some (JVal.obj vd))
    (hvalid : (jgetD vd "is_validated" JVal.null).truthy = true)
    (hsearch : search_google cfg w.searchNet (contactQuery vd) 3 = none)
    (h : performOcr cfg w req = (res, evs)) :
    evs.filter isEnrichEv = [] ∧
    (∀ resp, res = Except.ok resp →
      ∃ fd₁, escapePhone vd = some fd₁ ∧ mkOCRResponse (dropSlogan fd₁) = some resp) := by
  simp only [performOcr, hvr, hload, hvalid, hsearch, eq_self_iff_true, if_true,
    ite_true] at h
  repeat' split at h
  all_goals first
    | (injection h with h1 h2
       refine ⟨?_, ?_⟩
       · rw [← h2]
         simp [isEnrichEv, List.filter_append, apply_ite (List.filter isEnrichEv)]
       · intro resp hr
         rw [← h1] at hr
         exact absurd hr (by simp))
    | (rcases finalizeAndSubmit_char _ _ _ _ _ _ _ h with
        ⟨hescn, hevs, m, hres⟩ | ⟨fd₁, hesc, hevs, hrest⟩
       · refine ⟨?_, ?_⟩
         · rw [hevs]
           simp [isEnrichEv, List.filter_append, apply_ite (List.filter isEnrichEv)]
         · intro resp hr
           rw [hres] at hr
           exact absurd hr (by simp)
       · refine ⟨?_, ?_⟩
         · rw [hevs]
           simp [isEnrichEv, List.filter_append, apply_ite (List.filter isEnrichEv)]
         · intro resp hr
           rcases hrest with ⟨_, m, hres⟩ | ⟨_, r₂, hmk, hres⟩ | ⟨_, _, m, hres⟩
           · rw [hres] at hr
             exact absurd hr (by simp)
           · rw [hres] at hr
             have hrr := Except.ok.inj hr
             subst hrr
             exact ⟨fd₁, hesc, hmk⟩
           · rw [hres] at hr
             exact absurd hr (by simp))

/-- Claim C5 witness: the no-results example run (validated, failing search
endpoint) makes no enrichment call and returns exactly the finalized
validated record. -/
theorem c5_no_enrichment_without_results_witness :
    (jgetD vdEx "is_validated" JVal.null).truthy = true ∧
    search_google cfgEx wNoResults.searchNet (contactQuery vdEx) 3 = none ∧
    evsNoRes.filter isEnrichEv = [] ∧
    (∃ fd₁, escapePhone vdEx = some fd₁ ∧ mkOCRResponse (dropSlogan fd₁) = some respNoRes) := by
  have h := c5_no_enrichment_without_results cfgEx wNoResults reqEx "VAL" vdEx
    (Except.ok respNoRes) evsNoRes rfl rfl rfl rfl rfl
  exact ⟨rfl, rfl, h.1, h.2 respNoRes rfl⟩

end OCRReader
